import Mathlib

/-!
Shallow embedding of the universe-bulk-creator pipeline:
the validator (`src/services/validator.js`), the Airtable status sink
(`src/services/airtable.js`), the Universe client's pure transformation
helpers (`src/services/universe.js`), and the batch orchestrator
(`src/index.js`: `processEvent`, `createBatches`).

Impure ingredients are passed explicitly: the clock enters `validateEvent`
as a `today` day number, the network and the Airtable writes enter
`processEvent` as an `Env` of per-attempt oracles, and the generated
client-mutation token enters the transformer as a `token` argument.
JavaScript numbers are modelled as `Rat`; loosely-typed checkbox fields
are modelled as `JSVal` so that strict `=== true` tests are expressible.
-/

/-- A JavaScript scalar as it may sit in a Airtable checkbox-like field:
a boolean, a string, or a number. -/
inductive JSVal where
  | b (x : Bool)
  | s (x : String)
  | n (x : Rat)
deriving DecidableEq, Repr

/-- Whitespace trimming on a character list (both ends), the structural
counterpart of JS `trim()` on the ASCII whitespace the records hold. -/
def trimChars (l : List Char) : List Char :=
  ((l.dropWhile Char.isWhitespace).reverse.dropWhile Char.isWhitespace).reverse

/-- JS `String.prototype.trim`, via `trimChars`. -/
def jsTrim (t : String) : String :=
  String.mk (trimChars t.toList)

/-- Splitting on a single separator character, as JS `split(c)` does:
every separator occurrence cuts, empty segments are kept. -/
def splitAux (sep : Char) : List Char → List Char → List String
  | [], acc => [String.mk acc.reverse]
  | c :: rest, acc =>
      if c = sep then String.mk acc.reverse :: splitAux sep rest []
      else splitAux sep rest (c :: acc)

/-- JS `String.prototype.split` with a one-character separator. -/
def splitOnChar (sep : Char) (t : String) : List String :=
  splitAux sep t.toList []

/-- JS truthiness of an optional string field: present and nonempty. -/
def strTruthy : Option String → Bool
  | none => false
  | some t => t ≠ ""

/-- JS truthiness of `field?.trim()`: present and nonempty after trimming. -/
def trimTruthy : Option String → Bool
  | none => false
  | some t => jsTrim t ≠ ""

/-- JS truthiness of an optional numeric field: present and nonzero. -/
def numTruthy : Option Rat → Bool
  | none => false
  | some x => x ≠ 0

/-- A strict `=== true` test on a loosely-typed optional field. -/
def strictTrue : Option JSVal → Bool
  | some (JSVal.b true) => true
  | _ => false

/-- A source record as fetched from Airtable (`record.fields` spread over
`airtableId`).  Every data field is optional; the checkbox-like fields are
`JSVal` so that the transformer's strict `=== true` checks are modelled
exactly. -/
structure EventData where
  airtableId : Option String := none
  title : Option String := none
  description : Option String := none
  startDate : Option String := none
  startTime : Option String := none
  endDate : Option String := none
  endTime : Option String := none
  address : Option String := none
  venueName : Option String := none
  cityName : Option String := none
  ratePrice : Option Rat := none
  rateName : Option String := none
  rateCapacity : Option Rat := none
  rateDescription : Option String := none
  capacity : Option Rat := none
  countryCode : Option String := none
  dateDisplayOption : Option String := none
  privacy : Option String := none
  latitude : Option Rat := none
  longitude : Option Rat := none
  categoryId : Option String := none
  region : Option String := none
  maxQuantity : Option Rat := none
  transactionCurrency : Option String := none
  availableCountries : Option String := none
  tiktokPixelCodes : Option String := none
  facebookPixelCodes : Option String := none
  googleAnalytics4Id : Option String := none
  publish : Option JSVal := none
  virtual : Option JSVal := none
  allowWaitlist : Option JSVal := none
  socialButtons : Option JSVal := none
  hiddenDate : Option JSVal := none
  timedEntry : Option JSVal := none
deriving DecidableEq, Repr

/-- The validator's result record `{isValid, errors, warnings}`. -/
structure ValidationResult where
  isValid : Bool
  errors : List String
  warnings : List String
deriving DecidableEq, Repr

/-- The regex `^([0-1]?[0-9]|2[0-3]):[0-5][0-9]$` from `validator.js`,
translated branch by branch: either a single digit hour (the leading
`[0-1]` being optional), or `0`/`1` followed by any digit, or `2`
followed by `0`–`3`; then a colon and a minute `[0-5][0-9]`. -/
def timeFormatOk (t : String) : Bool :=
  match t.toList with
  | [h, ':', m1, m2] =>
      h.isDigit && ('0' ≤ m1 && m1 ≤ '5') && m2.isDigit
  | [h1, h2, ':', m1, m2] =>
      (((h1 = '0' || h1 = '1') && h2.isDigit) ||
        (h1 = '2' && ('0' ≤ h2 && h2 ≤ '3'))) &&
      ('0' ≤ m1 && m1 ≤ '5') && m2.isDigit
  | _ => false

/-- Decimal value of a digit string, as JS `Number` reads `"09"` as `9`. -/
def natOfDigits (t : String) : Nat :=
  t.toList.foldl (fun a c => a * 10 + (c.toNat - 48)) 0

/-- The validator's `time.split(':').map(Number)`: hour and minute of a
time string (only used on strings that passed `timeFormatOk`, which
guarantees exactly one colon). -/
def timeHM (t : String) : Nat × Nat :=
  match splitOnChar ':' t with
  | [h, m] => (natOfDigits h, natOfDigits m)
  | _ => (0, 0)

/-- Leap-year test of the Gregorian calendar. -/
def isLeap (y : Nat) : Bool :=
  (y % 4 = 0 && y % 100 ≠ 0) || y % 400 = 0

/-- Days in a Gregorian month. -/
def daysInMonth (y m : Nat) : Nat :=
  if m = 2 then (if isLeap y then 29 else 28)
  else if m = 4 ∨ m = 6 ∨ m = 9 ∨ m = 11 then 30
  else 31

/-- Day number (days since 1970-01-01) of a civil date, by the standard
era/year-of-era decomposition. -/
def daysFromCivil (y m d : Nat) : Int :=
  let yAdj : Nat := if m ≤ 2 then y - 1 else y
  let era : Nat := yAdj / 400
  let yoe : Nat := yAdj % 400
  let mp : Nat := (m + 9) % 12
  let doy : Nat := (153 * mp + 2) / 5 + d - 1
  let doe : Nat := yoe * 365 + yoe / 4 - yoe / 100 + doy
  (era : Int) * 146097 + (doe : Int) - 719468

/-- JS `new Date(s)` on an ISO `YYYY-MM-DD` string: ten characters, all
digit positions digits, month and day in range; `none` models the NaN
timestamp of an invalid date (NaN comparisons are all false, which the
callers below mirror by matching on `none`). -/
def parseYMD (t : String) : Option (Nat × Nat × Nat) :=
  match t.toList with
  | [y1, y2, y3, y4, '-', m1, m2, '-', d1, d2] =>
      if y1.isDigit && y2.isDigit && y3.isDigit && y4.isDigit &&
         m1.isDigit && m2.isDigit && d1.isDigit && d2.isDigit then
        let y := natOfDigits (String.mk [y1, y2, y3, y4])
        let mo := natOfDigits (String.mk [m1, m2])
        let d := natOfDigits (String.mk [d1, d2])
        if 1 ≤ mo ∧ mo ≤ 12 ∧ 1 ≤ d ∧ d ≤ daysInMonth y mo then
          some (y, mo, d)
        else none
      else none
  | _ => none

/-- Day number of a date string, or `none` for an invalid date. -/
def dateNum (t : String) : Option Int :=
  (parseYMD t).map (fun x => daysFromCivil x.1 x.2.1 x.2.2)

/-- Minute-resolution instant built like the validator's
`new Date(date)` + `setHours(hour, min, 0, 0)` pair: day number times
1440 plus minutes into the day.  Both instants are built the same way,
so their comparison agrees with the JS one (fixed-offset clock). -/
def instantOf (date time : String) : Option Int :=
  (dateNum date).map (fun n => n * 1440 + ((timeHM time).1 * 60 + (timeHM time).2))

/-- Errors of the eight required-field checks, in source order. -/
def presenceErrors (e : EventData) : List String :=
  (if trimTruthy e.title then [] else ["Title is required"]) ++
  (if strTruthy e.startDate then [] else ["Start date is required"]) ++
  (if strTruthy e.startTime then [] else ["Start time is required"]) ++
  (if strTruthy e.endDate then [] else ["End date is required"]) ++
  (if strTruthy e.endTime then [] else ["End time is required"]) ++
  (if trimTruthy e.address then [] else ["Address is required"]) ++
  (if trimTruthy e.venueName then [] else ["Venue name is required"]) ++
  (if trimTruthy e.cityName then [] else ["City name is required"])

/-- Guard of the date/time block: all four date/time fields truthy. -/
def fourPresent (e : EventData) : Bool :=
  strTruthy e.startDate && strTruthy e.startTime &&
  strTruthy e.endDate && strTruthy e.endTime

/-- The end-after-start check (`startDateTime >= endDateTime` pushes an
error); an invalid date on either side yields NaN comparisons, hence no
error. -/
def orderingErrors (e : EventData) : List String :=
  match instantOf (e.startDate.getD "") (e.startTime.getD ""),
        instantOf (e.endDate.getD "") (e.endTime.getD "") with
  | some a, some b =>
      if a ≥ b then ["Event end must be after event start (supports multi-day events)"]
      else []
  | _, _ => []

/-- Errors of the date/time block: the two format checks, then the
ordering check guarded by both formats passing. -/
def dateTimeErrors (e : EventData) : List String :=
  if fourPresent e then
    (if timeFormatOk (e.startTime.getD "") then []
     else ["Start time must be in HH:MM format (e.g., 19:30)"]) ++
    (if timeFormatOk (e.endTime.getD "") then []
     else ["End time must be in HH:MM format (e.g., 22:00)"]) ++
    (if timeFormatOk (e.startTime.getD "") && timeFormatOk (e.endTime.getD "") then
      orderingErrors e
     else [])
  else []

/-- The duration warning: `durationHours > 168`, i.e. more than 10080
minutes between the two instants. -/
def durationWarnings (e : EventData) : List String :=
  match instantOf (e.startDate.getD "") (e.startTime.getD ""),
        instantOf (e.endDate.getD "") (e.endTime.getD "") with
  | some a, some b =>
      if b - a > 10080 then ["Event duration is longer than 7 days"] else []
  | _, _ => []

/-- The past-start warning, against the day number `today` of the current
day's midnight. -/
def pastWarnings (e : EventData) (today : Int) : List String :=
  match dateNum (e.startDate.getD "") with
  | some n => if n < today then ["Event start date is in the past"] else []
  | none => []

/-- Warnings of the date/time block, in source order: duration (guarded by
both time formats passing), then past-start. -/
def dateTimeWarnings (e : EventData) (today : Int) : List String :=
  if fourPresent e then
    (if timeFormatOk (e.startTime.getD "") && timeFormatOk (e.endTime.getD "") then
      durationWarnings e
     else []) ++
    pastWarnings e today
  else []

/-- The rate-price check `ratePrice && ratePrice < 0`. -/
def ratePriceErrors (e : EventData) : List String :=
  match e.ratePrice with
  | some p => if p ≠ 0 ∧ p < 0 then ["Rate price cannot be negative"] else []
  | none => []

/-- The capacity check `capacity && capacity < 1`: a present capacity is
only tested when it is truthy, so a capacity of `0` short-circuits. -/
def capacityErrors (e : EventData) : List String :=
  match e.capacity with
  | some c => if c ≠ 0 ∧ c < 1 then ["Capacity must be at least 1"] else []
  | none => []

/-- The country-code length check. -/
def countryCodeErrors (e : EventData) : List String :=
  match e.countryCode with
  | some c =>
      if c ≠ "" ∧ c.length ≠ 2 then ["Country code must be 2 characters (e.g., CA, US)"]
      else []
  | none => []

/-- The date-display-option closed-set check. -/
def dateDisplayErrors (e : EventData) : List String :=
  match e.dateDisplayOption with
  | some v =>
      if v ≠ "" ∧ v ∉ ["FULL", "SHORT", "HIDDEN"] then
        ["Date display option must be FULL, SHORT, or HIDDEN"]
      else []
  | none => []

/-- The privacy check: literal membership in the six exact strings of
`validator.js` line 110 (upper-case and lower-case forms only). -/
def privacyErrors (e : EventData) : List String :=
  match e.privacy with
  | some p =>
      if p ≠ "" ∧ p ∉ ["PUBLIC", "PRIVATE", "UNLISTED", "public", "private", "unlisted"] then
        ["Privacy must be PUBLIC, PRIVATE, or UNLISTED (case insensitive)"]
      else []
  | none => []

/-- One comma-separated pixel-code list's hygiene warning. -/
def pixelWarn (field : Option String) (msg : String) : List String :=
  match field with
  | some t =>
      if t ≠ "" ∧ ((splitOnChar ',' t).map jsTrim).any (fun c => c = "") then [msg]
      else []
  | none => []

/-- Warnings for the two analytics pixel-code fields, in source order. -/
def pixelWarnings (e : EventData) : List String :=
  pixelWarn e.tiktokPixelCodes "TikTok pixel codes should not contain empty values" ++
  pixelWarn e.facebookPixelCodes "Facebook pixel codes should not contain empty values"

/-- The validator's `validateEvent`, with the clock passed explicitly as
the day number `today`.  Errors and warnings are accumulated in exactly
the order the source pushes them. -/
def validateEvent (e : EventData) (today : Int) : ValidationResult :=
  let errors :=
    presenceErrors e ++ dateTimeErrors e ++ ratePriceErrors e ++
    capacityErrors e ++ countryCodeErrors e ++ dateDisplayErrors e ++
    privacyErrors e
  let warnings := dateTimeWarnings e today ++ pixelWarnings e
  ⟨errors.isEmpty, errors, warnings⟩

/-- One pricing tier of the create request (`rates[i].attributes`). -/
structure RateInput where
  name : String
  price : Rat
  capacity : Option Int
  description : String
  state : String
deriving DecidableEq, Repr

/-- The nested `event` object of the create request.  An optional flag is
`some true` exactly when the transformer included it; `none` models an
absent key. -/
structure EventFields where
  title : Option String
  descriptionHtml : String
  address : Option String
  latitude : Rat
  longitude : Rat
  categoryId : String
  timeSlots : List (String × String)
  rates : List RateInput
  privacy : Option String
  virtual : Option Bool
  venueName : Option String
  region : Option String
  allowWaitlist : Option Bool
  socialButtons : Option Bool
  hiddenDate : Option Bool
  timedEntry : Option Bool
  maxQuantity : Option Int
  transactionCurrency : Option String
  availableCountries : Option (List String)
  tiktokPixelCodes : Option (List String)
  facebookPixelCodes : Option (List String)
  googleAnalytics4Id : Option String
deriving DecidableEq, Repr

/-- The top-level `EventCreateInput` envelope. -/
structure EventCreateInput where
  clientMutationId : String
  publish : Bool
  event : EventFields
deriving DecidableEq, Repr

/-- JS `parseInt` on a number: truncation toward zero. -/
def jsToInt (x : Rat) : Int :=
  if x < 0 then -(Rat.floor (-x)) else Rat.floor x

/-- JS `padStart(n, c)`: left-pad to length `n` with `c`. -/
def padStart (t : String) (n : Nat) (c : Char) : String :=
  if n ≤ t.length then t
  else String.mk (List.replicate (n - t.length) c) ++ t

/-- The transformer's `combineDateAndTime` on string dates (the records
carry date strings): take the date part before any `T`, left-pad the time
to five characters, and return `date ++ "T" ++ time ++ ":00"`.  The
function performs no validation of the time string. -/
def combineDateAndTime (date time : String) : String :=
  let dateStr := ((splitOnChar 'T' date).headD "")
  let timeStr := padStart time 5 '0'
  dateStr ++ "T" ++ timeStr ++ ":00"

/-- Replacement of every occurrence of one character by a string, the
structural counterpart of JS `replace(/c/g, by)`. -/
def replaceChar (c : Char) (by' : String) (t : String) : String :=
  String.join (t.toList.map (fun d => if d = c then by' else String.mk [d]))

/-- Splitting on the two-character separator `"\n\n"`, as the
transformer's `description.split('\n\n')` does. -/
def splitNN : List Char → List Char → List String
  | [], acc => [String.mk acc.reverse]
  | '\n' :: '\n' :: rest, acc => String.mk acc.reverse :: splitNN rest []
  | c :: rest, acc => splitNN rest (c :: acc)

/-- The transformer's `formatDescription`: empty for a missing
description, otherwise double-newline-delimited paragraphs trimmed,
dropped when empty, wrapped in `<p>` markup with single newlines turned
into `<br>`. -/
def formatDescription (description : Option String) : String :=
  match description with
  | none => ""
  | some d =>
      if d = "" then ""
      else
        String.join ((((splitNN d.toList []).map jsTrim).filter
          (fun p => p.length ≠ 0)).map
            (fun p => "<p>" ++ replaceChar '\n' "<br>" p ++ "</p>"))

/-- JS `String.prototype.toLowerCase` on the ASCII values the records
hold. -/
def jsToLower (t : String) : String :=
  String.mk (t.toList.map Char.toLower)

/-- The transformer `transformToEventCreateInput`, with the generated
client-mutation token passed explicitly as `token` (the source draws it
from the clock and `Math.random`). -/
def transformToEventCreateInput (token : String) (a : EventData) : EventCreateInput :=
  let timeSlots :=
    if fourPresent a then
      [(combineDateAndTime (a.startDate.getD "") (a.startTime.getD ""),
        combineDateAndTime (a.endDate.getD "") (a.endTime.getD ""))]
    else []
  let rates :=
    if strTruthy a.rateName && numTruthy a.ratePrice then
      [{ name := a.rateName.getD "",
         price := a.ratePrice.getD 0,
         capacity := if numTruthy a.rateCapacity then some (jsToInt (a.rateCapacity.getD 0)) else none,
         description := a.rateDescription.getD "",
         state := "ACTIVE" : RateInput }]
    else []
  let privacy :=
    match a.privacy with
    | some p =>
        if p ≠ "" then
          let pv := jsToLower p
          some (if pv = "private" then "unlisted" else pv)
        else none
    | none => none
  { clientMutationId := token,
    publish := strictTrue a.publish,
    event :=
      { title := a.title,
        descriptionHtml := formatDescription a.description,
        address := a.address,
        latitude := if numTruthy a.latitude then a.latitude.getD 0 else (43653226 : Rat) / 1000000,
        longitude := if numTruthy a.longitude then a.longitude.getD 0 else -(793831843 : Rat) / 10000000,
        categoryId := if strTruthy a.categoryId then a.categoryId.getD "" else "52cc8f6154c5317943000003",
        timeSlots := timeSlots,
        rates := rates,
        privacy := privacy,
        virtual := if strictTrue a.virtual then some true else none,
        venueName := if strTruthy a.venueName then a.venueName else none,
        region := if strTruthy a.region then a.region else none,
        allowWaitlist := if strictTrue a.allowWaitlist then some true else none,
        socialButtons := if strictTrue a.socialButtons then some true else none,
        hiddenDate := if strictTrue a.hiddenDate then some true else none,
        timedEntry := if strictTrue a.timedEntry then some true else none,
        maxQuantity := if numTruthy a.maxQuantity then some (jsToInt (a.maxQuantity.getD 0)) else none,
        transactionCurrency := if strTruthy a.transactionCurrency then a.transactionCurrency else none,
        availableCountries :=
          if strTruthy a.availableCountries then
            some ((splitOnChar ',' (a.availableCountries.getD "")).map jsTrim)
          else none,
        tiktokPixelCodes :=
          if strTruthy a.tiktokPixelCodes then
            some ((splitOnChar ',' (a.tiktokPixelCodes.getD "")).map jsTrim)
          else none,
        facebookPixelCodes :=
          if strTruthy a.facebookPixelCodes then
            some ((splitOnChar ',' (a.facebookPixelCodes.getD "")).map jsTrim)
          else none,
        googleAnalytics4Id := if strTruthy a.googleAnalytics4Id then a.googleAnalytics4Id else none } }

/-- The Universe client's `getEventUrl`: pure string formatting. -/
def getEventUrl (slug : String) : String :=
  "https://www.universe.com/" ++ slug

/-- One status write that reached Airtable: the `markAsCreated` payload
(record id, Universe event id, event URL) or the `markAsError` payload
(record id, truncated message). -/
inductive PersistCall where
  | created (recordId : String) (universeEventId : String) (universeUrl : String)
  | errored (recordId : String) (message : String)
deriving DecidableEq, Repr

/-- JS `substring(0, n)`: the first `n` characters. -/
def jsSubstring (t : String) (n : Nat) : String :=
  String.mk (t.toList.take n)

/-- The underlying `this.table.update` call, abstracted as an oracle:
`none` means the write succeeds, `some m` that it throws with message
`m`. -/
def tableUpdate (fail : Option String) : Except String Unit :=
  match fail with
  | none => Except.ok ()
  | some m => Except.error m

/-- The Airtable service's `updateEventStatus`: try the write, log and
re-throw on failure. -/
def updateEventStatus (fail : Option String) (recordId status : String) : Except String Unit :=
  match tableUpdate fail with
  | Except.ok _ => Except.ok ()
  | Except.error m => Except.error m

/-- The Airtable service's `markAsCreated`: try the write, log and
re-throw on failure; on success the write carries the event id and URL. -/
def markAsCreated (fail : Option String) (recordId universeEventId universeUrl : String) :
    Except String PersistCall :=
  match tableUpdate fail with
  | Except.ok _ => Except.ok (PersistCall.created recordId universeEventId universeUrl)
  | Except.error m => Except.error m

/-- The Airtable service's `markAsError`: try the write with the message
truncated to 1000 characters; a failure is logged and swallowed (the
catch block returns normally and re-throws nothing), so the caller gets
`Except.ok` in every case — `some call` when the write landed, `none`
when it was lost. -/
def markAsError (fail : Option String) (recordId errorMessage : String) :
    Except String (Option PersistCall) :=
  match tableUpdate fail with
  | Except.ok _ => Except.ok (some (PersistCall.errored recordId (jsSubstring errorMessage 1000)))
  | Except.error _ => Except.ok none

/-- The event object a successful Universe create returns (the fields
`processEvent` reads). -/
structure UniverseEvent where
  id : String
  slug : String
  state : String
  clientMutationId : String
deriving DecidableEq, Repr

/-- Per-record oracles for one `processEvent` run, indexed by the attempt
number (`retryCount`): the create call's outcome, the publish call's
outcome, and the failure messages (if any) of the two Airtable writes. -/
structure Env where
  createResult : Nat → Except String UniverseEvent
  publishOk : Nat → Bool
  markCreatedFail : Nat → Option String
  markErrorFail : Nat → Option String

deriving instance DecidableEq for Except

/-- Observable trace of one `processEvent` run: how many create and
publish calls went out, the publish-failure warnings logged, the backoff
delays awaited (in order, in ms), the status writes that reached
Airtable, and the promise's outcome. -/
structure Trace where
  createCalls : Nat
  publishCalls : Nat
  publishWarnings : Nat
  delays : List Nat
  persists : List PersistCall
  result : Except String UniverseEvent
deriving DecidableEq, Repr

/-- Sequencing of a failed attempt's trace with the backoff delay `d` and
the retry's trace. -/
def Trace.seq (t : Trace) (d : Nat) (rest : Trace) : Trace :=
  { createCalls := t.createCalls + rest.createCalls,
    publishCalls := t.publishCalls + rest.publishCalls,
    publishWarnings := t.publishWarnings + rest.publishWarnings,
    delays := t.delays ++ d :: rest.delays,
    persists := t.persists ++ rest.persists,
    result := rest.result }

/-- Whether the publish branch runs for a created event: the record asked
for publication (strict `=== true`) and the event is not already
`POSTED`; its value is the number of publish calls this attempt sends. -/
def pubCount (e : EventData) (uev : UniverseEvent) : Nat :=
  if strictTrue e.publish && uev.state ≠ "POSTED" then 1 else 0

/-- Publish-failure warnings this attempt logs: one exactly when the
publish branch ran and the publish call failed (the inner catch logs and
swallows). -/
def warnCount (env : Env) (e : EventData) (uev : UniverseEvent) (n : Nat) : Nat :=
  if (strictTrue e.publish && uev.state ≠ "POSTED") && !(env.publishOk n) then 1 else 0

/-- One pass through `processEvent`'s try block at attempt `n`: the trace
of that pass, and `some msg` when the block threw (a create failure or a
`markAsCreated` failure — both land in the same catch), `none` when it
returned. -/
def attemptOnce (env : Env) (e : EventData) (n : Nat) : Trace × Option String :=
  match env.createResult n with
  | Except.error msg =>
      (⟨1, 0, 0, [], [], Except.error msg⟩, some msg)
  | Except.ok uev =>
      match markAsCreated (env.markCreatedFail n) (e.airtableId.getD "") uev.id (getEventUrl uev.slug) with
      | Except.ok pc =>
          (⟨1, pubCount e uev, warnCount env e uev n, [], [pc], Except.ok uev⟩, none)
      | Except.error pmsg =>
          (⟨1, pubCount e uev, warnCount env e uev n, [], [], Except.error pmsg⟩, some pmsg)

/-- The Error-status writes that reach Airtable when the budget is
exhausted at attempt `n` with message `msg`: one write, or none when the
(swallowed) `markAsError` write itself fails. -/
def errorWrites (env : Env) (e : EventData) (n : Nat) (msg : String) : List PersistCall :=
  match markAsError (env.markErrorFail n) (e.airtableId.getD "") msg with
  | Except.ok (some pc) => [pc]
  | Except.ok none => []
  | Except.error _ => []

/-- The retry loop of `processEvent`, structurally recursive on the
remaining budget: at attempt `rc` with `rem = maxRetries - rc` attempts
still allowed, a thrown try block either retries after a
`1000 * (rc + 1)` ms backoff (`rc < maxRetries`, i.e. `rem > 0`) or
exhausts the budget, writes the Error status via `markAsError` and
re-throws the last failure. -/
def processEventGo (env : Env) (e : EventData) : Nat → Nat → Trace
  | rc, 0 =>
      let att := attemptOnce env e rc
      match att.2 with
      | none => att.1
      | some msg =>
          { att.1 with
            persists := att.1.persists ++ (errorWrites env e rc msg),
            result := Except.error msg }
  | rc, r + 1 =>
      let att := attemptOnce env e rc
      match att.2 with
      | none => att.1
      | some _ =>
          Trace.seq att.1 (1000 * (rc + 1)) (processEventGo env e (rc + 1) r)

/-- `processEvent(event)` from `index.js`: the retry loop started at
`retryCount = 0` with `maxRetries` retries allowed. -/
def processEvent (env : Env) (e : EventData) (maxRetries : Nat) : Trace :=
  processEventGo env e 0 maxRetries

/-- `createBatches` from `index.js`: consecutive slices of `batchSize`
records (the source loop does not terminate for a zero batch size; the
zero guard returns no batches and is outside every claim). -/
def createBatches (batchSize : Nat) : List α → List (List α)
  | [] => []
  | x :: xs =>
      if h : batchSize = 0 then []
      else (x :: xs).take batchSize :: createBatches batchSize ((x :: xs).drop batchSize)
termination_by l => l.length
decreasing_by
  simp only [List.length_drop, List.length_cons]
  omega

/-- A fully valid concrete record used by the concrete evaluations. -/
def exValid : EventData :=
  { airtableId := some "recBase", title := some "Concert",
    startDate := some "2025-07-31", startTime := some "19:30",
    endDate := some "2025-07-31", endTime := some "23:00",
    address := some "1 Main St", venueName := some "Hall",
    cityName := some "Toronto" }

/-- `exValid` with the single-digit-hour start time `"9:00"`. -/
def exNineAM : EventData :=
  { exValid with startTime := some "9:00" }

/-- `exValid` with the out-of-range start time `"25:00"`. -/
def exTwentyFive : EventData :=
  { exValid with startTime := some "25:00" }

/-- `exValid` with the mixed-case privacy value `"Private"`. -/
def exPrivacyMixed : EventData :=
  { exValid with privacy := some "Private" }

/-- `exValid` with a present capacity of `0`. -/
def exCapacityZero : EventData :=
  { exValid with capacity := some 0 }

/-- Day number of 2025-07-01, a concrete `today` for the validator. -/
def day0 : Int := daysFromCivil 2025 7 1

/-- A concrete created event (draft state). -/
def uevA : UniverseEvent := ⟨"ev123", "my-event", "DRAFT", "cm1"⟩

/-- Oracles where every create succeeds but the first `markAsCreated`
write fails: the persistence-failure scenario. -/
def envPersistFail : Env :=
  { createResult := fun _ => Except.ok uevA,
    publishOk := fun _ => true,
    markCreatedFail := fun n => if n = 0 then some "airtable down" else none,
    markErrorFail := fun _ => none }

/-- Oracles where every create fails with `"boom"` and both Airtable
writes succeed. -/
def envAllFail : Env :=
  { createResult := fun _ => Except.error "boom",
    publishOk := fun _ => true,
    markCreatedFail := fun _ => none,
    markErrorFail := fun _ => none }

/-- Oracles where create succeeds at once but the publish call fails. -/
def envPublishFail : Env :=
  { createResult := fun _ => Except.ok uevA,
    publishOk := fun _ => false,
    markCreatedFail := fun _ => none,
    markErrorFail := fun _ => none }

/-- `exValid` requesting immediate publication. -/
def exPublish : EventData :=
  { exValid with publish := some (JSVal.b true) }

/-- C3 (code_bug evaluation): on an otherwise fully valid record, the
start time `"9:00"` passes the validator's format check silently (no
error at all), because the regex `[0-1]?[0-9]` makes the leading digit
optional, while `"25:00"` does produce the format error.  The repo's own
documentation promises that `"9:00"` "will cause validation errors". -/
theorem nineOClock_passes_validator :
    timeFormatOk "9:00" = true ∧
    validateEvent exNineAM day0 = ⟨true, [], []⟩ ∧
    timeFormatOk "25:00" = false ∧
    validateEvent exTwentyFive day0 =
      ⟨false, ["Start time must be in HH:MM format (e.g., 19:30)"], []⟩ := by
  decide

/-- C4 (code_bug evaluation): `combineDateAndTime` performs no validation
of its time argument: for `"25:00"`, which fails the `HH:MM` format
check, it still returns the combined instant string
`"2025-07-31T25:00:00"` (and it merely left-pads `"9:00"`), instead of
rejecting as the claim and the repo's design document require. -/
theorem combineDateAndTime_rejects_nothing :
    timeFormatOk "25:00" = false ∧
    combineDateAndTime "2025-07-31" "25:00" = "2025-07-31T25:00:00" ∧
    combineDateAndTime "2025-07-31" "9:00" = "2025-07-31T09:00:00" := by
  decide

/-- C5 (code_bug evaluation): the mixed-case privacy value `"Private"`
is rejected by the validator — whose own error message claims the check
is case insensitive — because the membership test lists only the six
all-upper and all-lower spellings. -/
theorem privacy_mixed_case_rejected :
    validateEvent exPrivacyMixed day0 =
      ⟨false, ["Privacy must be PUBLIC, PRIVATE, or UNLISTED (case insensitive)"], []⟩ := by
  decide

/-- C8 (counterexample): a record with a present capacity of `0` gets no
capacity error (the validator's `capacity && capacity < 1` guard treats
the falsy `0` as absent), contradicting the claim that capacity `0`
produces an error. -/
theorem capacity_zero_passes :
    exCapacityZero.capacity = some 0 ∧
    validateEvent exCapacityZero day0 = ⟨true, [], []⟩ := by
  decide

/-- C1 (counterexample): with every create call succeeding and the first
`markAsCreated` write failing, `processEvent` with one retry allowed
performs two create calls and one backoff delay: the persistence failure
re-enters the retry loop and re-executes the create step, contrary to
the claim that it is logged only and never causes the create step to be
re-executed. -/
theorem persistence_failure_retries_cex :
    envPersistFail.createResult 0 = Except.ok uevA ∧
    envPersistFail.createResult 1 = Except.ok uevA ∧
    envPersistFail.markCreatedFail 0 = some "airtable down" ∧
    (processEvent envPersistFail exValid 1).createCalls = 2 ∧
    (processEvent envPersistFail exValid 1).delays = [1000] := by
  decide

lemma processEventGo_ok (env : Env) (e : EventData) (rc rem : Nat) (uev : UniverseEvent)
    (h1 : env.createResult rc = Except.ok uev) (h2 : env.markCreatedFail rc = none) :
    processEventGo env e rc rem =
      ⟨1, pubCount e uev, warnCount env e uev rc, [],
       [PersistCall.created (e.airtableId.getD "") uev.id (getEventUrl uev.slug)],
       Except.ok uev⟩ := by
  cases rem <;>
    simp [processEventGo, attemptOnce, h1, h2, markAsCreated, tableUpdate]

lemma processEventGo_allFail (env : Env) (e : EventData) (msgs : Nat → String) :
    ∀ rem rc, (∀ i, rc ≤ i → i ≤ rc + rem → env.createResult i = Except.error (msgs i)) →
    processEventGo env e rc rem =
      ⟨rem + 1, 0, 0, (List.range' (rc + 1) rem).map (fun i => 1000 * i),
       errorWrites env e (rc + rem) (msgs (rc + rem)),
       Except.error (msgs (rc + rem))⟩ := by
  intro rem
  induction rem with
  | zero =>
      intro rc h
      have hc := h rc le_rfl (by omega)
      simp [processEventGo, attemptOnce, hc]
  | succ r ih =>
      intro rc h
      have hc := h rc le_rfl (by omega)
      have hrec := ih (rc + 1) (fun i h1 h2 => h i (by omega) (by omega))
      simp only [processEventGo, attemptOnce, hc]
      rw [hrec]
      simp [Trace.seq, List.range'_succ]
      refine ⟨by omega, ?_, ?_⟩ <;>
        rw [show rc + 1 + r = rc + (r + 1) from by omega]

lemma processEventGo_failThenOk (env : Env) (e : EventData) (msgs : Nat → String)
    (uev : UniverseEvent) :
    ∀ n rc rem, n ≤ rem →
    (∀ i, rc ≤ i → i < rc + n → env.createResult i = Except.error (msgs i)) →
    env.createResult (rc + n) = Except.ok uev →
    env.markCreatedFail (rc + n) = none →
    processEventGo env e rc rem =
      ⟨n + 1, pubCount e uev, warnCount env e uev (rc + n),
       (List.range' (rc + 1) n).map (fun i => 1000 * i),
       [PersistCall.created (e.airtableId.getD "") uev.id (getEventUrl uev.slug)],
       Except.ok uev⟩ := by
  intro n
  induction n with
  | zero =>
      intro rc rem _ _ hok hmc
      simpa using processEventGo_ok env e rc rem uev (by simpa using hok) (by simpa using hmc)
  | succ k ih =>
      intro rc rem hle hfail hok hmc
      obtain ⟨r, rfl⟩ : ∃ r, rem = r + 1 := ⟨rem - 1, by omega⟩
      have hc := hfail rc le_rfl (by omega)
      have hrec := ih (rc + 1) r (by omega) (fun i h1 h2 => hfail i (by omega) (by omega))
        (by rw [show rc + 1 + k = rc + (k + 1) from by omega]; exact hok)
        (by rw [show rc + 1 + k = rc + (k + 1) from by omega]; exact hmc)
      simp only [processEventGo, attemptOnce, hc]
      rw [hrec]
      simp [Trace.seq, List.range'_succ]
      exact ⟨by omega, by rw [show rc + 1 + k = rc + (k + 1) from by omega]⟩

lemma attemptOnce_createCalls (env : Env) (e : EventData) (rc : Nat) :
    (attemptOnce env e rc).1.createCalls = 1 := by
  unfold attemptOnce
  rcases h : env.createResult rc with m | uev
  · rfl
  · rcases h2 : markAsCreated (env.markCreatedFail rc) (e.airtableId.getD "") uev.id
      (getEventUrl uev.slug) with m2 | pc <;> simp [h2]

lemma processEventGo_createCalls_pos (env : Env) (e : EventData) (rem rc : Nat) :
    1 ≤ (processEventGo env e rc rem).createCalls := by
  cases rem with
  | zero =>
      simp only [processEventGo]
      rcases h2 : (attemptOnce env e rc).2 with - | msg <;>
        simp [h2, attemptOnce_createCalls env e rc]
  | succ r =>
      simp only [processEventGo]
      rcases h2 : (attemptOnce env e rc).2 with - | msg <;>
        simp [h2, Trace.seq, attemptOnce_createCalls env e rc]

lemma errorWrites_ok (env : Env) (e : EventData) (n : Nat) (msg : String)
    (h : env.markErrorFail n = none) :
    errorWrites env e n msg =
      [PersistCall.errored (e.airtableId.getD "") (jsSubstring msg 1000)] := by
  simp [errorWrites, markAsError, tableUpdate, h]

/-- C2: retry exhaustion and backoff.  If every create attempt up to the
budget fails, `processEvent` performs exactly `maxRetries + 1` create
calls, waits `1000 * attemptNumber` ms before each retry (`1000, 2000,
...`), writes the Error status carrying the final failure's (truncated)
message, and reports failure; if attempt `k ≤ maxRetries` succeeds after
`k` failures (and the Created write lands), exactly `k + 1` create calls
happen, the record is persisted as Created, and no further attempt or
delay follows. -/
theorem retry_exhaustion_and_backoff (env : Env) (e : EventData) (maxRetries : Nat)
    (msgs : Nat → String) :
    ((∀ i, i ≤ maxRetries → env.createResult i = Except.error (msgs i)) →
      env.markErrorFail maxRetries = none →
      processEvent env e maxRetries =
        ⟨maxRetries + 1, 0, 0, (List.range' 1 maxRetries).map (fun i => 1000 * i),
         [PersistCall.errored (e.airtableId.getD "") (jsSubstring (msgs maxRetries) 1000)],
         Except.error (msgs maxRetries)⟩)
    ∧ (∀ k uev, k ≤ maxRetries →
        (∀ i, i < k → env.createResult i = Except.error (msgs i)) →
        env.createResult k = Except.ok uev →
        env.markCreatedFail k = none →
        processEvent env e maxRetries =
          ⟨k + 1, pubCount e uev, warnCount env e uev k,
           (List.range' 1 k).map (fun i => 1000 * i),
           [PersistCall.created (e.airtableId.getD "") uev.id (getEventUrl uev.slug)],
           Except.ok uev⟩) := by
  constructor
  · intro hall herr
    have h := processEventGo_allFail env e msgs maxRetries 0 (fun i _ h2 => hall i (by omega))
    simp only [Nat.zero_add] at h
    rw [processEvent, h, errorWrites_ok env e maxRetries _ herr]
  · intro k uev hk hfail hok hmc
    have h := processEventGo_failThenOk env e msgs uev k 0 maxRetries hk
      (fun i _ h2 => hfail i (by omega)) (by simpa using hok) (by simpa using hmc)
    simp only [Nat.zero_add] at h
    rw [processEvent, h]

/-- C2 witness: with every create failing with `"boom"` and a budget of
2 retries, the run makes 3 create calls, waits 1000 then 2000 ms, writes
the Error status and fails. -/
theorem retry_exhaustion_and_backoff_witness :
    processEvent envAllFail exValid 2 =
      ⟨3, 0, 0, [1000, 2000], [PersistCall.errored "recBase" "boom"],
       Except.error "boom"⟩ := by
  have h := (retry_exhaustion_and_backoff envAllFail exValid 2 (fun _ => "boom")).1
    (fun i _ => rfl) rfl
  exact h.trans (by decide)

/-- C7: publish non-fatality.  When the create call succeeds at once, the
record asked for publication, the event is not already posted and the
single publish attempt fails, the record is still persisted as Created
with its remote id and URL, exactly one publish call and one warning are
logged, and no retry happens (one create call, no delays); the record's
outcome is success. -/
theorem publish_failure_nonfatal (env : Env) (e : EventData) (maxRetries : Nat)
    (uev : UniverseEvent)
    (hcreate : env.createResult 0 = Except.ok uev)
    (hpub : e.publish = some (JSVal.b true))
    (hstate : uev.state ≠ "POSTED")
    (hpubfail : env.publishOk 0 = false)
    (hmc : env.markCreatedFail 0 = none) :
    processEvent env e maxRetries =
      ⟨1, 1, 1, [],
       [PersistCall.created (e.airtableId.getD "") uev.id (getEventUrl uev.slug)],
       Except.ok uev⟩ := by
  have h := processEventGo_ok env e 0 maxRetries uev hcreate hmc
  rw [processEvent, h]
  have hp : pubCount e uev = 1 := by simp [pubCount, hpub, strictTrue, hstate]
  have hw : warnCount env e uev 0 = 1 := by
    simp [warnCount, hpub, strictTrue, hstate, hpubfail]
  rw [hp, hw]

/-- C7 witness: concrete run of the publish-failure scenario. -/
theorem publish_failure_nonfatal_witness :
    processEvent envPublishFail exPublish 3 =
      ⟨1, 1, 1, [],
       [PersistCall.created "recBase" "ev123" "https://www.universe.com/my-event"],
       Except.ok uevA⟩ := by
  have h := publish_failure_nonfatal envPublishFail exPublish 3 uevA rfl rfl
    (by decide) rfl rfl
  exact h.trans (by decide)

/-- C1 (amended): a `markAsCreated` failure after a successful create is
not merely logged — it propagates into the per-record catch: with retry
budget remaining the record re-enters the retry loop (the next backoff
delay of 1000 ms is awaited and the create step is executed again), and
with the budget exhausted the record is instead marked as Error with the
persistence failure's message and reported upward as a failure, altering
its outcome. -/
theorem persistence_failure_reenters_retry (env : Env) (e : EventData)
    (maxRetries : Nat) (uev : UniverseEvent) (pmsg : String)
    (hcreate : env.createResult 0 = Except.ok uev)
    (hmcfail : env.markCreatedFail 0 = some pmsg) :
    (0 < maxRetries →
      (processEvent env e maxRetries).delays.take 1 = [1000] ∧
      2 ≤ (processEvent env e maxRetries).createCalls)
    ∧ (maxRetries = 0 → env.markErrorFail 0 = none →
      processEvent env e maxRetries =
        ⟨1, pubCount e uev, warnCount env e uev 0, [],
         [PersistCall.errored (e.airtableId.getD "") (jsSubstring pmsg 1000)],
         Except.error pmsg⟩) := by
  constructor
  · intro hpos
    obtain ⟨r, rfl⟩ : ∃ r, maxRetries = r + 1 := ⟨maxRetries - 1, by omega⟩
    have hrest := processEventGo_createCalls_pos env e r 1
    simp only [processEvent, processEventGo, attemptOnce, hcreate, hmcfail,
      markAsCreated, tableUpdate, Trace.seq]
    constructor
    · simp
    · simp
      omega
  · intro h0 herr
    subst h0
    simp [processEvent, processEventGo, attemptOnce, hcreate, hmcfail,
      markAsCreated, tableUpdate, errorWrites, markAsError, herr]

/-- C1 witness: the amended behavior at the concrete persistence-failure
environment — with one retry allowed, the backoff is awaited and a second
create call goes out. -/
theorem persistence_failure_reenters_retry_witness :
    (processEvent envPersistFail exValid 1).delays.take 1 = [1000] ∧
    2 ≤ (processEvent envPersistFail exValid 1).createCalls :=
  (persistence_failure_reenters_retry envPersistFail exValid 1 uevA "airtable down"
    rfl rfl).1 (by decide)

/-- C9: the error-marking persistence operation never propagates its own
failure — for every oracle outcome `markAsError` returns normally (the
catch block only logs) — while `markAsCreated` and `updateEventStatus`
re-throw the underlying write's failure to their caller. -/
theorem markAsError_never_throws (fail : Option String)
    (recordId universeEventId universeUrl status msg : String) :
    (∃ w, markAsError fail recordId msg = Except.ok w) ∧
    (∀ m, fail = some m →
      markAsCreated fail recordId universeEventId universeUrl = Except.error m ∧
      updateEventStatus fail recordId status = Except.error m) := by
  constructor
  · rcases fail with - | m
    · exact ⟨some (PersistCall.errored recordId (jsSubstring msg 1000)), rfl⟩
    · exact ⟨none, rfl⟩
  · rintro m rfl
    exact ⟨rfl, rfl⟩

/-- C9 witness: at a concrete failing write, `markAsError` still returns
normally while the other two operations re-throw. -/
theorem markAsError_never_throws_witness :
    (∃ w, markAsError (some "write failed") "rec1" "msg" = Except.ok w) ∧
    markAsCreated (some "write failed") "rec1" "ev1" "url1" = Except.error "write failed" ∧
    updateEventStatus (some "write failed") "rec1" "Created" = Except.error "write failed" :=
  ⟨(markAsError_never_throws (some "write failed") "rec1" "ev1" "url1" "Created" "msg").1,
   ((markAsError_never_throws (some "write failed") "rec1" "ev1" "url1" "Created" "msg").2
      "write failed" rfl).1,
   ((markAsError_never_throws (some "write failed") "rec1" "ev1" "url1" "Created" "msg").2
      "write failed" rfl).2⟩

lemma strictTrue_iff (v : Option JSVal) :
    strictTrue v = true ↔ v = some (JSVal.b true) := by
  rcases v with - | jv
  · simp [strictTrue]
  · rcases jv with x | x | x
    · rcases x <;> simp [strictTrue]
    · simp [strictTrue]
    · simp [strictTrue]

/-- C10: strict-true semantics of the boolean option fields.  The
request's publish flag is true iff the record's publish field is the
boolean `true`, and each optional flag appears in the output (as `some
true`) iff the corresponding source field is the boolean `true`; any
other value (strings, numbers, `false`, absence) yields a false publish
flag and omission (`none`) of the optional flag. -/
theorem strict_true_boolean_flags (token : String) (a : EventData) :
    ((transformToEventCreateInput token a).publish = true ↔
      a.publish = some (JSVal.b true)) ∧
    ((transformToEventCreateInput token a).event.virtual =
      if a.virtual = some (JSVal.b true) then some true else none) ∧
    ((transformToEventCreateInput token a).event.allowWaitlist =
      if a.allowWaitlist = some (JSVal.b true) then some true else none) ∧
    ((transformToEventCreateInput token a).event.socialButtons =
      if a.socialButtons = some (JSVal.b true) then some true else none) ∧
    ((transformToEventCreateInput token a).event.hiddenDate =
      if a.hiddenDate = some (JSVal.b true) then some true else none) ∧
    ((transformToEventCreateInput token a).event.timedEntry =
      if a.timedEntry = some (JSVal.b true) then some true else none) := by
  refine ⟨?_, ?_, ?_, ?_, ?_, ?_⟩ <;>
    simp only [transformToEventCreateInput, strictTrue_iff] <;>
    split <;>
    simp_all [strictTrue_iff]

lemma createBatches_flatten (B : Nat) (hB : 0 < B) :
    ∀ l : List α, (createBatches B l).flatten = l := by
  intro l
  induction l using createBatches.induct B with
  | case1 => simp [createBatches]
  | case2 x xs h => omega
  | case3 x xs h ih =>
      simp only [createBatches, dif_neg h, List.flatten_cons, ih, List.take_append_drop]

lemma createBatches_sizes (B : Nat) (hB : 0 < B) :
    ∀ l : List α, ∀ b ∈ createBatches B l, b.length ≤ B := by
  intro l
  induction l using createBatches.induct B with
  | case1 => simp [createBatches]
  | case2 x xs h => omega
  | case3 x xs h ih =>
      intro b hb
      simp only [createBatches, dif_neg h, List.mem_cons] at hb
      rcases hb with rfl | hb
      · exact List.length_take_le B (x :: xs)
      · exact ih b hb

lemma createBatches_length (B : Nat) (hB : 0 < B) :
    ∀ l : List α, (createBatches B l).length = (l.length + B - 1) / B := by
  intro l
  induction l using createBatches.induct B with
  | case1 =>
      simp only [createBatches, List.length_nil, Nat.zero_add]
      exact (Nat.div_eq_of_lt (by omega)).symm
  | case2 x xs h => omega
  | case3 x xs h ih =>
      simp only [createBatches, dif_neg h, List.length_cons, ih, List.length_drop]
      rw [show xs.length + 1 + B - 1 = xs.length + B from by omega,
        Nat.add_div_right _ hB]
      rcases le_or_lt B (xs.length + 1) with hle | hlt
      · rw [show xs.length + 1 - B + B - 1 = xs.length from by omega]
      · rw [show xs.length + 1 - B = 0 from by omega]
        rw [show 0 + B - 1 = B - 1 from by omega]
        rw [Nat.div_eq_of_lt (by omega), Nat.div_eq_of_lt (by omega)]

lemma createBatches_full (B : Nat) (hB : 0 < B) :
    ∀ l : List α, ∀ i, i + 1 < (createBatches B l).length →
      ((createBatches B l).getD i []).length = B := by
  intro l
  induction l using createBatches.induct B with
  | case1 => simp [createBatches]
  | case2 x xs h => omega
  | case3 x xs h ih =>
      intro i hi
      simp only [createBatches, dif_neg h, List.length_cons] at hi ⊢
      cases i with
      | zero =>
          have hne : createBatches B ((x :: xs).drop B) ≠ [] := by
            intro hempty
            rw [hempty] at hi
            simp at hi
          have hdrop : (x :: xs).drop B ≠ [] := by
            intro hempty
            rw [hempty] at hne
            simp [createBatches] at hne
          have hlen : B ≤ (x :: xs).length := by
            by_contra hcon
            push_neg at hcon
            exact hdrop (List.drop_eq_nil_of_le (by omega))
          simp only [List.length_cons] at hlen
          simp only [List.getD, List.get?_eq_getElem?, List.getElem?_cons_zero]
          simp [List.length_take, Nat.min_eq_left hlen]
      | succ j =>
          have hj := ih j (by omega)
          simpa using hj

/-- C6: batch partition correctness.  For a positive batch size `B`,
`createBatches` yields `⌈L/B⌉` batches (as `(L + B - 1) / B`), every
batch has at most `B` records, every batch except possibly the last has
exactly `B`, and the concatenation of the batches in order is the
original list. -/
theorem createBatches_partition (l : List α) (B : Nat) (hB : 0 < B) :
    (createBatches B l).length = (l.length + B - 1) / B ∧
    (∀ b ∈ createBatches B l, b.length ≤ B) ∧
    (∀ i, i + 1 < (createBatches B l).length →
      ((createBatches B l).getD i []).length = B) ∧
    (createBatches B l).flatten = l :=
  ⟨createBatches_length B hB l, createBatches_sizes B hB l,
   createBatches_full B hB l, createBatches_flatten B hB l⟩

/-- C6 witness: the partition properties at batch size 2 over a 5-element
list. -/
theorem createBatches_partition_witness :
    0 < 2 ∧
    ((createBatches 2 [1, 2, 3, 4, 5]).length = (5 + 2 - 1) / 2 ∧
     (∀ b ∈ createBatches 2 [1, 2, 3, 4, 5], b.length ≤ 2) ∧
     (∀ i, i + 1 < (createBatches 2 [1, 2, 3, 4, 5]).length →
       ((createBatches 2 [1, 2, 3, 4, 5]).getD i []).length = 2) ∧
     (createBatches 2 [1, 2, 3, 4, 5]).flatten = [1, 2, 3, 4, 5]) :=
  ⟨by decide, createBatches_partition [1, 2, 3, 4, 5] 2 (by decide)⟩

lemma mem_ite_nil {c : Prop} [Decidable c] {a : α} {l : List α} :
    a ∈ (if c then l else []) ↔ c ∧ a ∈ l := by
  split <;> simp_all

lemma mem_ite_cases {c : Prop} [Decidable c] {a : α} {l₁ l₂ : List α}
    (h : a ∈ if c then l₁ else l₂) : a ∈ l₁ ∨ a ∈ l₂ := by
  split at h
  · exact Or.inl h
  · exact Or.inr h

lemma validateEvent_errors_def (e : EventData) (today : Int) :
    (validateEvent e today).errors =
      presenceErrors e ++ dateTimeErrors e ++ ratePriceErrors e ++
      capacityErrors e ++ countryCodeErrors e ++ dateDisplayErrors e ++
      privacyErrors e := rfl

lemma presenceErrors_subset (e : EventData) :
    ∀ s ∈ presenceErrors e,
      s ∈ ["Title is required", "Start date is required", "Start time is required",
        "End date is required", "End time is required", "Address is required",
        "Venue name is required", "City name is required"] := by
  intro s hs
  unfold presenceErrors at hs
  simp only [List.mem_append, or_assoc] at hs
  rcases hs with hs | hs | hs | hs | hs | hs | hs | hs <;>
    rcases mem_ite_cases hs with hs2 | hs2 <;> simp_all

lemma orderingErrors_subset (e : EventData) :
    ∀ s ∈ orderingErrors e,
      s = "Event end must be after event start (supports multi-day events)" := by
  intro s hs
  unfold orderingErrors at hs
  rcases h1 : instantOf (e.startDate.getD "") (e.startTime.getD "") with - | a <;>
    rcases h2 : instantOf (e.endDate.getD "") (e.endTime.getD "") with - | b <;>
    rw [h1, h2] at hs <;> simp only [] at hs
  · simp at hs
  · simp at hs
  · simp at hs
  · rcases mem_ite_cases hs with hs2 | hs2 <;> simp_all

lemma dateTimeErrors_subset (e : EventData) :
    ∀ s ∈ dateTimeErrors e,
      s ∈ ["Start time must be in HH:MM format (e.g., 19:30)",
        "End time must be in HH:MM format (e.g., 22:00)",
        "Event end must be after event start (supports multi-day events)"] := by
  intro s hs
  unfold dateTimeErrors at hs
  rcases mem_ite_cases hs with hs2 | hs2
  · simp only [List.mem_append, or_assoc] at hs2
    rcases hs2 with hs3 | hs3 | hs3
    · rcases mem_ite_cases hs3 with hs4 | hs4 <;> simp_all
    · rcases mem_ite_cases hs3 with hs4 | hs4 <;> simp_all
    · rcases mem_ite_cases hs3 with hs4 | hs4
      · have hss := orderingErrors_subset e s hs4
        simp [hss]
      · simp at hs4
  · simp at hs2

lemma ratePriceErrors_subset (e : EventData) :
    ∀ s ∈ ratePriceErrors e, s = "Rate price cannot be negative" := by
  intro s hs
  unfold ratePriceErrors at hs
  rcases h : e.ratePrice with - | p <;> rw [h] at hs
  · simp at hs
  · rcases mem_ite_cases hs with hs2 | hs2 <;> simp_all

lemma capacityErrors_subset (e : EventData) :
    ∀ s ∈ capacityErrors e, s = "Capacity must be at least 1" := by
  intro s hs
  unfold capacityErrors at hs
  rcases h : e.capacity with - | c <;> rw [h] at hs
  · simp at hs
  · rcases mem_ite_cases hs with hs2 | hs2 <;> simp_all

lemma countryCodeErrors_subset (e : EventData) :
    ∀ s ∈ countryCodeErrors e,
      s = "Country code must be 2 characters (e.g., CA, US)" := by
  intro s hs
  unfold countryCodeErrors at hs
  rcases h : e.countryCode with - | c <;> rw [h] at hs
  · simp at hs
  · rcases mem_ite_cases hs with hs2 | hs2 <;> simp_all

lemma dateDisplayErrors_subset (e : EventData) :
    ∀ s ∈ dateDisplayErrors e,
      s = "Date display option must be FULL, SHORT, or HIDDEN" := by
  intro s hs
  unfold dateDisplayErrors at hs
  rcases h : e.dateDisplayOption with - | v <;> rw [h] at hs
  · simp at hs
  · rcases mem_ite_cases hs with hs2 | hs2 <;> simp_all

lemma privacyErrors_subset (e : EventData) :
    ∀ s ∈ privacyErrors e,
      s = "Privacy must be PUBLIC, PRIVATE, or UNLISTED (case insensitive)" := by
  intro s hs
  unfold privacyErrors at hs
  rcases h : e.privacy with - | p <;> rw [h] at hs
  · simp at hs
  · rcases mem_ite_cases hs with hs2 | hs2 <;> simp_all

lemma priceMsg_mem_ratePriceErrors (e : EventData) :
    "Rate price cannot be negative" ∈ ratePriceErrors e ↔
      ∃ p, e.ratePrice = some p ∧ p < 0 := by
  unfold ratePriceErrors
  rcases h : e.ratePrice with - | p
  · simp
  · simp only [mem_ite_nil, List.mem_singleton]
    constructor
    · rintro ⟨⟨-, hlt⟩, -⟩
      exact ⟨p, rfl, hlt⟩
    · rintro ⟨q, hq, hlt⟩
      cases hq
      exact ⟨⟨ne_of_lt hlt, hlt⟩, by trivial⟩

lemma capMsg_mem_capacityErrors (e : EventData) :
    "Capacity must be at least 1" ∈ capacityErrors e ↔
      ∃ c, e.capacity = some c ∧ c ≠ 0 ∧ c < 1 := by
  unfold capacityErrors
  rcases h : e.capacity with - | c
  · simp
  · simp only [mem_ite_nil, List.mem_singleton]
    constructor
    · rintro ⟨⟨hne, hlt⟩, -⟩
      exact ⟨c, rfl, hne, hlt⟩
    · rintro ⟨q, hq, hne, hlt⟩
      cases hq
      exact ⟨⟨hne, hlt⟩, by trivial⟩

/-- C8 (amended): the validator's numeric-range checks use JS
truthiness for presence.  A negative `ratePrice` produces the rate-price
error (and a nonnegative or absent one does not); a `capacity` that is
present, nonzero and below 1 produces the capacity error, while a
capacity of `0` — although present and below 1 — produces no error
because the truthiness guard treats `0` as absent; capacities of 1 or
more, and absent capacities, produce no error. -/
theorem rate_and_capacity_error_iff (e : EventData) (today : Int) :
    ("Rate price cannot be negative" ∈ (validateEvent e today).errors ↔
      ∃ p, e.ratePrice = some p ∧ p < 0) ∧
    ("Capacity must be at least 1" ∈ (validateEvent e today).errors ↔
      ∃ c, e.capacity = some c ∧ c ≠ 0 ∧ c < 1) := by
  rw [validateEvent_errors_def]
  constructor
  · constructor
    · intro h
      simp only [List.mem_append, or_assoc] at h
      rcases h with h | h | h | h | h | h | h
      · exact absurd (presenceErrors_subset e _ h) (by decide)
      · exact absurd (dateTimeErrors_subset e _ h) (by decide)
      · exact (priceMsg_mem_ratePriceErrors e).1 h
      · exact absurd (capacityErrors_subset e _ h) (by decide)
      · exact absurd (countryCodeErrors_subset e _ h) (by decide)
      · exact absurd (dateDisplayErrors_subset e _ h) (by decide)
      · exact absurd (privacyErrors_subset e _ h) (by decide)
    · intro h
      simp only [List.mem_append, or_assoc]
      exact Or.inr (Or.inr (Or.inl ((priceMsg_mem_ratePriceErrors e).2 h)))
  · constructor
    · intro h
      simp only [List.mem_append, or_assoc] at h
      rcases h with h | h | h | h | h | h | h
      · exact absurd (presenceErrors_subset e _ h) (by decide)
      · exact absurd (dateTimeErrors_subset e _ h) (by decide)
      · exact absurd (ratePriceErrors_subset e _ h) (by decide)
      · exact (capMsg_mem_capacityErrors e).1 h
      · exact absurd (countryCodeErrors_subset e _ h) (by decide)
      · exact absurd (dateDisplayErrors_subset e _ h) (by decide)
      · exact absurd (privacyErrors_subset e _ h) (by decide)
    · intro h
      simp only [List.mem_append, or_assoc]
      exact Or.inr (Or.inr (Or.inr (Or.inl ((capMsg_mem_capacityErrors e).2 h))))
